import Mathlib

/-!
Verification development for the railway-network scripts:
`network/build network.py`, `analysis/build and plot the network.py`
and `analysis/assign_provinces_by_geo.py`.

Strings are modelled as lists of characters (`Str`), CSV cells that may be
absent as `Option`, pandas NaN / Python None explicitly, machine floats by
`PFloat` (an explicit NaN plus a real number), and fallible Python code by
`Except`.
-/

/-- Strings of the scripts, modelled as lists of characters. -/
abbrev Str := List Char

/-- Whitespace recognised by Python `str.strip` and the regex `\s`
(restricted to the ASCII whitespace characters; the inputs of this
development contain no further Unicode whitespace). -/
def isWs (c : Char) : Bool :=
  c == ' ' || c == '\t' || c == '\n' || c == '\r' || c.toNat == 11 || c.toNat == 12

/-- The fixed punctuation set removed by `normalize_name` in
`network/build network.py` line 20: the character class
`( ) [ ] \ / - . , U+3002 U+00B7 U+2022 "` (the raw regex lists `\\` and
`U+00B7` twice; duplicates collapse in a set). -/
def punctChars : List Char :=
  ['(', ')', '[', ']', '\\', '/', '-', '.', ',', '。', '·', '•', '"']

/-- Membership in the removed punctuation set. -/
def isPunct (c : Char) : Bool :=
  punctChars.contains c

/-- Unicode NFKC normalization (`unicodedata.normalize('NFKC', s)`),
modelled character-wise on the alphabet exercised by this development:
NFKC is the identity on ASCII and on the CJK punctuation of `punctChars`,
and maps the fullwidth forms U+FF0C/U+FF08/U+FF09 to their ASCII
counterparts. -/
def nfkcChar (c : Char) : Char :=
  if c = '，' then ',' else if c = '（' then '(' else if c = '）' then ')' else c

/-- Python `str.lower`, character-wise (ASCII case folding; the claims of
this development exercise no character whose lowercasing is non-ASCII). -/
def lowerChar (c : Char) : Char :=
  if 65 ≤ c.toNat ∧ c.toNat ≤ 90 then Char.ofNat (c.toNat + 32) else c

/-- Python `str.strip()`: drop whitespace from both ends. -/
def pyStrip (l : Str) : Str :=
  ((l.dropWhile isWs).reverse.dropWhile isWs).reverse

/-- Scanner for `collapseWs`; the flag records whether the previous
character was whitespace (i.e. whether we are inside a run already
replaced by a single space). -/
def collapseWsAux : Bool → Str → Str
  | _, [] => []
  | prevWs, c :: rest =>
    if isWs c then
      if prevWs then collapseWsAux true rest
      else ' ' :: collapseWsAux true rest
    else c :: collapseWsAux false rest

/-- `re.sub(r'\s+', ' ', s)`: replace every maximal whitespace run by a
single space. -/
def collapseWs (l : Str) : Str :=
  collapseWsAux false l

/-- `normalize_name` of `network/build network.py` lines 12-21: a null
(`pd.isna`) input gives the empty string; otherwise NFKC-normalize, strip,
collapse internal whitespace, remove the fixed punctuation set and
lowercase. -/
def normalize_name (name : Option Str) : Str :=
  match name with
  | none => []
  | some s =>
    (((collapseWs (pyStrip (s.map nfkcChar))).filter (fun c => !(isPunct c))).map lowerChar)

/-- `normalize_name` applied to an already-present string, as happens when
the function's own output is fed back to it (a Python `str` is never
`pd.isna`). -/
def canonStr (s : Str) : Str :=
  normalize_name (some s)

/-! ## Python dicts

`name_to_id` is a Python dict: assignment to an existing key overwrites the
value in place, assignment to a fresh key appends; `dict.get` returns
`None` for an absent key. Modelled as an association list. -/

/-- Python `d[k] = v`: overwrite in place if `k` is present, else append. -/
def dictInsert {K V : Type} [BEq K] (d : List (K × V)) (k : K) (v : V) : List (K × V) :=
  if d.any (fun p => p.1 == k) then
    d.map (fun p => if p.1 == k then (k, v) else p)
  else
    d ++ [(k, v)]

/-- Python `d.get(k)`: the stored value, or `None` when absent. -/
def dictGet {K V : Type} [BEq K] (d : List (K × V)) (k : K) : Option V :=
  (d.find? (fun p => p.1 == k)).map (fun p => p.2)

/-! ## `network/build network.py`: station index and track loop -/

/-- A Python value used as a station identifier (`stations.csv` may carry
either integer or string ids). -/
inductive PyId where
  | pint (n : ℤ)
  | pstr (s : String)
deriving DecidableEq, Repr, Inhabited

/-- Python truthiness of an identifier: `0` and `""` are falsy. -/
def PyId.truthy : PyId → Bool
  | .pint n => n != 0
  | .pstr s => s != ""

/-- Truthiness of `dict.get`'s result: `None` is falsy, otherwise the
value's own truthiness (`if start_id and end_id:`). -/
def optTruthy (o : Option PyId) : Bool :=
  match o with
  | none => false
  | some v => v.truthy

/-- The identifier under a truthy `dict.get` result (only consulted after
the truthiness test has passed). -/
def optGetId (o : Option PyId) : PyId :=
  match o with
  | none => .pint 0
  | some v => v

/-- One row of `stations.csv` as seen by the index build and `add_node`
(the fields `province`/`latitude`/`longitude` are carried to node
attributes only and are not consulted by any claim; they are omitted). -/
structure StationRow where
  station_name : Option Str
  station_id : PyId
deriving DecidableEq, Repr

/-- The `year` cell of a track row: pandas NaN (missing), a numeric value,
or a non-numeric string (object column). -/
inductive YearVal where
  | ymissing
  | ynum (n : ℤ)
  | ystr (s : Str)
deriving DecidableEq, Repr

/-- One row of `tracks.csv` as consumed by the edge loop. -/
structure TrackRow where
  start_station : Option Str
  end_station : Option Str
  length : ℚ
  year : YearVal
  ttype : String
  edge_id : Option String
deriving DecidableEq, Repr

/-- Lines 48-51: `name_to_id[normalize_name(row['station_name'])] =
row['station_id']`, scanning the station rows in order. -/
def buildNameToId (rows : List StationRow) : List (Str × PyId) :=
  rows.foldl (fun d r => dictInsert d (normalize_name r.station_name) r.station_id) []

/-- The `type_mapping` dict of lines 66-71 (`None` when the type is not a
key of the table). -/
def type_mapping (t : String) : Option String :=
  if t = "rail_both" then some "rail_both"
  else if t = "rail_good" then some "rail_good"
  else if t = "rail pass" then some "rail_pass"
  else if t = "road" then some "road"
  else none

/-- Line 74: `tracks_df['type'].map(type_mapping).fillna(tracks_df['type'])`
— unmapped types pass through unchanged. -/
def typeStandardized (t : String) : String :=
  (type_mapping t).getD t

/-- Python `int(str)` restricted to what the year column can hold: strip
whitespace, an optional sign, then decimal digits (underscore digit
grouping is not exercised by this development). `none` is `ValueError`. -/
def parseIntPy (s : Str) : Option ℤ :=
  let t := pyStrip s
  let digits : Str → Option ℤ := fun l =>
    if l.isEmpty then none
    else if l.all (fun c => c.isDigit) then
      some (l.foldl (fun acc c => acc * 10 + ((c.toNat : ℤ) - 48)) 0)
    else none
  match t with
  | '-' :: rest => (digits rest).map (fun n => -n)
  | '+' :: rest => digits rest
  | rest => digits rest

/-- Lines 90-92: `year_val = row['year'] if pd.notna(row['year']) else
None; year_int = int(year_val) if year_val is not None else None`. A
non-numeric string raises `ValueError`. -/
def parseYearPy : YearVal → Except String (Option ℤ)
  | .ymissing => .ok none
  | .ynum n => .ok (some n)
  | .ystr s =>
    match parseIntPy s with
    | some n => .ok (some n)
    | none => .error "ValueError"

/-- One edge of the `nx.MultiDiGraph`, with the attributes set by
`G.add_edge` at lines 94-99. -/
structure EdgeRec where
  src : PyId
  tgt : PyId
  length : ℚ
  year : Option ℤ
  year_raw : YearVal
  ttype : String
  edge_id : Option String
deriving DecidableEq, Repr

/-- The accumulator of the edge loop: the multigraph's edge list (each
`add_edge` on a `MultiDiGraph` creates a fresh keyed edge, so the list is
append-only), `edges_added`, and the raw `missing_stations` labels. -/
structure BuildSt where
  edges : List EdgeRec
  edges_added : ℕ
  missing_stations : List (Option Str)
deriving DecidableEq, Repr

/-- The edge the loop body constructs from a track row once both endpoints
resolved and the year parsed to `y`. -/
def trackEdge (idx : List (Str × PyId)) (row : TrackRow) (y : Option ℤ) : EdgeRec :=
  { src := optGetId (dictGet idx (normalize_name row.start_station))
    tgt := optGetId (dictGet idx (normalize_name row.end_station))
    length := row.length
    year := y
    year_raw := row.year
    ttype := typeStandardized row.ttype
    edge_id := row.edge_id }

/-- The body of the edge loop, lines 80-105: resolve both endpoints via
the normalized-name dict; when both are truthy, parse the year (a
`ValueError` escapes to the script's top-level handler) and append a new
edge; otherwise append the raw label of each unresolved endpoint to
`missing_stations`. -/
def addTrack (idx : List (Str × PyId)) (st : BuildSt) (row : TrackRow) :
    Except String BuildSt :=
  let start_id := dictGet idx (normalize_name row.start_station)
  let end_id := dictGet idx (normalize_name row.end_station)
  if optTruthy start_id && optTruthy end_id then
    match parseYearPy row.year with
    | .error e => .error e
    | .ok y =>
      .ok { st with
              edges := st.edges ++ [trackEdge idx row y]
              edges_added := st.edges_added + 1 }
  else
    .ok { st with
            missing_stations :=
              st.missing_stations
                ++ (if optTruthy start_id then [] else [row.start_station])
                ++ (if optTruthy end_id then [] else [row.end_station]) }

/-- The whole edge loop over `tracks_df`; an uncaught `ValueError` aborts
the fold (it propagates to the `except Exception` handler at lines
378-381, which makes `main` return `False`). -/
def processTracks (idx : List (Str × PyId)) (rows : List TrackRow) :
    Except String BuildSt :=
  rows.foldlM (addTrack idx) ⟨[], 0, []⟩

/-- Lines 48-105 of `main`: build the normalized-name index from the
station rows, then run the edge loop over the track rows. -/
def buildNetworkMain (stations : List StationRow) (tracks : List TrackRow) :
    Except String BuildSt :=
  processTracks (buildNameToId stations) tracks

/-! ## `analysis/build and plot the network.py`: `build_networkx_graph`

The graph type there is `nx.Graph`: a simple undirected graph whose
`add_edge` on an already-present (unordered) endpoint pair updates that
edge's attribute dict in place instead of creating a second edge.
Stations and edges in these datasets are keyed by integer ids. -/

/-- One row of `station_dataset.csv` as consumed by `build_networkx_graph`
(already filtered to one year by `load_and_process_data`). -/
structure Station2 where
  station_id : ℤ
  longitude : Option ℚ
  latitude : Option ℚ
  city_id : Option String
  city_name_chn : Option String
  city_name_eng : Option String
  province_code : Option String
  province_name : Option String
deriving DecidableEq, Repr

/-- The node attributes stored by `G.add_node` at lines 43-52. -/
structure NodeAttrs where
  longitude : Option ℚ
  latitude : Option ℚ
  city_id : Option String
  city_name_chn : Option String
  city_name_eng : Option String
  province_code : Option String
  province_name : Option String
deriving DecidableEq, Repr

/-- The attributes of a `Station2` row, as passed to `add_node`. -/
def Station2.attrs (s : Station2) : NodeAttrs :=
  ⟨s.longitude, s.latitude, s.city_id, s.city_name_chn, s.city_name_eng,
    s.province_code, s.province_name⟩

/-- One row of `edge_dataset.csv` (already filtered to one year). -/
structure EdgeRow2 where
  source_station : ℤ
  target_station : ℤ
  edge_id : ℤ
  seg_id : ℤ
  length_km : ℚ
deriving DecidableEq, Repr

/-- The edge attributes stored by `G.add_edge` at lines 61-67. -/
structure EAttrs where
  edge_id : ℤ
  seg_id : ℤ
  length_km : ℚ
deriving DecidableEq, Repr

/-- An `nx.Graph`: nodes as an insertion-ordered id→attributes dict, edges
as an insertion-ordered list keyed by an endpoint pair, at most one entry
per unordered pair. -/
structure NXGraph where
  nodes : List (ℤ × NodeAttrs)
  edges : List ((ℤ × ℤ) × EAttrs)
deriving DecidableEq, Repr

/-- Whether two stored endpoint pairs denote the same undirected edge. -/
def sameUndirected (a b : ℤ × ℤ) : Bool :=
  (a.1 == b.1 && a.2 == b.2) || (a.1 == b.2 && a.2 == b.1)

/-- `nx.Graph.add_edge u v` on the edge list: if an edge with the same
unordered endpoints exists, its attributes are replaced (the stored
orientation and position are kept); otherwise a new edge is appended.
(`add_edge` would also insert absent endpoints as fresh nodes, but
`build_networkx_graph` only calls it after checking both endpoints are
nodes, so that branch never fires and is not modelled.) -/
def nxAddEdge (es : List ((ℤ × ℤ) × EAttrs)) (u v : ℤ) (a : EAttrs) :
    List ((ℤ × ℤ) × EAttrs) :=
  if es.any (fun p => sameUndirected p.1 (u, v)) then
    es.map (fun p => if sameUndirected p.1 (u, v) then (p.1, a) else p)
  else
    es ++ [((u, v), a)]

/-- The node dict after the `add_node` loop of lines 42-52: one node per
station row, keyed by `station_id`. -/
def nodesOf (stations : List Station2) : List (ℤ × NodeAttrs) :=
  stations.foldl (fun ns s => dictInsert ns s.station_id s.attrs) []

/-- `build_networkx_graph` of `analysis/build and plot the network.py`
lines 36-70: add one node per station row, then for each edge row add the
edge only when both endpoint ids are existing nodes (rows failing the
check are passed over with no diagnostic). -/
def build_networkx_graph (stations : List Station2) (edges : List EdgeRow2) :
    NXGraph :=
  { nodes := nodesOf stations
    edges := edges.foldl (fun es e =>
      if ((nodesOf stations).any (fun p => p.1 == e.source_station))
          && ((nodesOf stations).any (fun p => p.1 == e.target_station)) then
        nxAddEdge es e.source_station e.target_station ⟨e.edge_id, e.seg_id, e.length_km⟩
      else es) [] }

/-- Modelled from the library source of `networkx.density` (the script
calls `nx.density(G)` at line 281; networkx itself is not under `src/`):
`n = number_of_nodes; m = number_of_edges; if m == 0 or n <= 1: return 0;
d = m / (n * (n - 1)); if not directed: d *= 2`. -/
def nx_density (n m : ℕ) : ℚ :=
  if m = 0 ∨ n ≤ 1 then 0 else 2 * ((m : ℚ) / ((n : ℚ) * ((n : ℚ) - 1)))

/-- The `density` entry of the statistics dict at lines 276-284, for a
graph of the model: `nx.density` on its node and edge counts (in
`nx.Graph` every stored unordered pair counts once). -/
def networkStatsDensity (g : NXGraph) : ℚ :=
  nx_density g.nodes.length g.edges.length

/-! ## `analysis/assign_provinces_by_geo.py`

Machine floats are modelled by `PFloat`: an explicit NaN (pandas stores a
missing CSV cell as float NaN, and `float(nan)` succeeds and returns NaN)
together with an idealized real value. -/

/-- A float: NaN or a real value. -/
inductive PFloat where
  | pnan
  | pval (x : ℝ)

/-- NaN test. -/
def PFloat.isNan : PFloat → Bool
  | .pnan => true
  | .pval _ => false

/-- The real value of a non-NaN float (0 as a dummy on NaN; only consulted
on NaN-free data). -/
noncomputable def PFloat.val : PFloat → ℝ
  | .pnan => 0
  | .pval x => x

/-- A CSV cell feeding Python `float(...)`: pandas NaN (a missing cell), a
numeric value, a string (object column), or Python `None`. -/
inductive FCell where
  | fmissing
  | fnum (q : ℚ)
  | fstr (s : Str)
  | fnone
deriving DecidableEq, Repr

/-- The digits of `l` read as a natural number in ℚ. -/
def digitsVal (l : Str) : ℚ :=
  l.foldl (fun acc c => acc * 10 + ((c.toNat : ℚ) - 48)) 0

/-- All characters are decimal digits. -/
def allDigits (l : Str) : Bool :=
  l.all (fun c => c.isDigit)

/-- An unsigned decimal literal: `12`, `12.5`, `.5` or `12.` (the
exponent, `inf` and `nan` spellings are not exercised by this
development). -/
def parseUnsignedFloat (l : Str) : Option ℚ :=
  let intPart := l.takeWhile (fun c => c != '.')
  match l.dropWhile (fun c => c != '.') with
  | [] => if l.isEmpty then none else if allDigits l then some (digitsVal l) else none
  | _ :: frac =>
    if frac.any (fun c => c == '.') then none
    else if intPart.isEmpty && frac.isEmpty then none
    else if allDigits intPart && allDigits frac then
      some (digitsVal intPart + digitsVal frac / (10 ^ frac.length))
    else none

/-- Python `float(str)`: strip whitespace, optional sign, decimal
literal; `none` is `ValueError`. -/
def parseFloatPy (s : Str) : Option ℚ :=
  match pyStrip s with
  | '-' :: rest => (parseUnsignedFloat rest).map (fun q => -q)
  | '+' :: rest => parseUnsignedFloat rest
  | rest => parseUnsignedFloat rest

/-- Python `float(cell)` as used at lines 103-104: NaN converts to NaN
without an exception, a numeric cell to its value, a string cell parses or
raises `ValueError`, and `None` raises `TypeError`. -/
def pyFloat : FCell → Except String PFloat
  | .fmissing => .ok .pnan
  | .fnum q => .ok (.pval (q : ℝ))
  | .fstr s =>
    match parseFloatPy s with
    | some q => .ok (.pval (q : ℝ))
    | none => .error "ValueError"
  | .fnone => .error "TypeError"

/-- `np.deg2rad`. -/
noncomputable def deg2rad (x : ℝ) : ℝ :=
  x * (Real.pi / 180)

/-- `haversine` of `analysis/assign_provinces_by_geo.py` lines 7-19, on
ideal reals: convert the four coordinates to radians and return
`R * 2 * arcsin(sqrt(sin²(dlat/2) + cos(lat1) cos(lat2) sin²(dlon/2)))`
with `R = 6371.0`. -/
noncomputable def haversineR (lon1 lat1 lon2 lat2 : ℝ) : ℝ :=
  let rlon1 := deg2rad lon1
  let rlat1 := deg2rad lat1
  let rlon2 := deg2rad lon2
  let rlat2 := deg2rad lat2
  let dlon := rlon2 - rlon1
  let dlat := rlat2 - rlat1
  let a := Real.sin (dlat / 2) ^ 2 + Real.cos rlat1 * Real.cos rlat2 * Real.sin (dlon / 2) ^ 2
  6371.0 * (2 * Real.arcsin (Real.sqrt a))

/-- `haversine` on floats: any NaN input propagates to a NaN output. -/
noncomputable def haversineF : PFloat → PFloat → PFloat → PFloat → PFloat
  | .pval lon1, .pval lat1, .pval lon2, .pval lat2 => .pval (haversineR lon1 lat1 lon2 lat2)
  | _, _, _, _ => .pnan

/-- Index of the first occurrence of the minimum of a list (0 on `[]`):
the scan order of `np.argmin`, which keeps the earliest index on ties. -/
def argminL {α : Type} [LinearOrder α] : List α → ℕ
  | [] => 0
  | [_] => 0
  | x :: y :: rest =>
    let j := argminL (y :: rest)
    if x ≤ (y :: rest).getD j y then 0 else j + 1

/-- Index of the first element satisfying `p`, if any. -/
def firstIdxWhere {α : Type} (p : α → Bool) : List α → Option ℕ
  | [] => none
  | x :: rest => if p x then some 0 else (firstIdxWhere p rest).map (fun i => i + 1)

/-- `np.argmin` on a float array: when NaNs are present the index of the
first NaN is returned (NumPy's documented NaN propagation); otherwise the
first index attaining the minimum. -/
noncomputable def npArgminF (l : List PFloat) : ℕ :=
  match firstIdxWhere (fun x => x.isNan) l with
  | some i => i
  | none => argminL (l.map PFloat.val)

/-- One row of `ChinaCities_Swerts.csv` after the
`dropna(subset=['Lat','Long'])` filter: name, province label and numeric
coordinates. -/
structure CityRow where
  name : String
  province : String
  lon : ℚ
  lat : ℚ
deriving DecidableEq, Repr, Inhabited

/-- One unique station row as read in the assignment loop: only its id and
raw coordinate cells are consulted. -/
structure StationGeo where
  station_id : String
  longitude : FCell
  latitude : FCell
deriving DecidableEq, Repr

/-- The per-station result columns written by the loop at lines 101-124
(initial values: empty strings and NaN distance). -/
structure GeoResult where
  province_code : String
  province_name : String
  prov_assign_method : String
  nearest_city : String
  distance_to_city_km : PFloat

/-- `PROVINCE_NAME_MAP` of lines 23-57. -/
def provinceNameMap : List (String × String) :=
  [("BEIJING", "北京市"), ("TIANJIN", "天津市"), ("HEBEI", "河北省"),
   ("SHANXI", "山西省"), ("INNER MONGOLIA", "内蒙古自治区"),
   ("NEIMENGGU", "内蒙古自治区"), ("LIAONING", "辽宁省"), ("JILIN", "吉林省"),
   ("HEILONGJIANG", "黑龙江省"), ("SHANGHAI", "上海市"), ("JIANGSU", "江苏省"),
   ("ZHEJIANG", "浙江省"), ("ANHUI", "安徽省"), ("FUJIAN", "福建省"),
   ("JIANGXI", "江西省"), ("SHANDONG", "山东省"), ("HENAN", "河南省"),
   ("HUBEI", "湖北省"), ("HUNAN", "湖南省"), ("GUANGDONG", "广东省"),
   ("GUANGXI", "广西壮族自治区"), ("HAINAN", "海南省"), ("CHONGQING", "重庆市"),
   ("SICHUAN", "四川省"), ("GUIZHOU", "贵州省"), ("YUNNAN", "云南省"),
   ("TIBET", "西藏自治区"), ("XIZANG", "西藏自治区"), ("SHAANXI", "陕西省"),
   ("GANSU", "甘肃省"), ("QINGHAI", "青海省"), ("NINGXIA", "宁夏回族自治区"),
   ("XINJIANG", "新疆维吾尔自治区")]

/-- Python `dict.get(k, d)` on a string-keyed table. -/
def mapGetD (m : List (String × String)) (k d : String) : String :=
  ((m.find? (fun p => p.1 == k)).map (fun p => p.2)).getD d

/-- The result of the loop body when `float(...)` raised (`except
(ValueError, TypeError)`): only `prov_assign_method` is set to
`no_coords`; the other columns keep their initial values. -/
def noCoordsResult : GeoResult :=
  { province_code := ""
    province_name := ""
    prov_assign_method := "no_coords"
    nearest_city := ""
    distance_to_city_km := .pnan }

/-- The loop body of lines 101-124 for one station: convert the raw
longitude and latitude cells with `float`; on `ValueError`/`TypeError`
record `no_coords`; otherwise compute the haversine distance to every
city, take `np.argmin`, and record the chosen city's name, province (also
translated through `PROVINCE_NAME_MAP.get(en, en)`), the method label and
the chosen distance. -/
noncomputable def assignStation (cities : List CityRow) (st : StationGeo) : GeoResult :=
  match pyFloat st.longitude with
  | .error _ => noCoordsResult
  | .ok lonF =>
    match pyFloat st.latitude with
    | .error _ => noCoordsResult
    | .ok latF =>
      let dists := cities.map (fun c => haversineF lonF latF (.pval (c.lon : ℝ)) (.pval (c.lat : ℝ)))
      let i := npArgminF dists
      let city := cities.getD i default
      { province_code := city.province
        province_name := mapGetD provinceNameMap city.province city.province
        prov_assign_method := "assigned_by_nearest_city"
        nearest_city := city.name
        distance_to_city_km := dists.getD i .pnan }

/-- The NaN-free distance list of a station with numeric coordinates
`(qlon, qlat)`, on ideal reals. -/
noncomputable def geoDists (cities : List CityRow) (qlon qlat : ℚ) : List ℝ :=
  cities.map (fun c => haversineR (qlon : ℝ) (qlat : ℝ) (c.lon : ℝ) (c.lat : ℝ))

/-! ## Dictionary lemmas -/

section DictLemmas

variable {K V : Type} [BEq K] [LawfulBEq K]

theorem find?_map_overwrite (d : List (K × V)) (k : K) (v : V)
    (h : d.any (fun p => p.1 == k) = true) :
    (d.map (fun p => if p.1 == k then (k, v) else p)).find? (fun p => p.1 == k) =
      some (k, v) := by
  induction d with
  | nil => simp at h
  | cons p rest ih =>
    by_cases hp : (p.1 == k) = true
    · simp [List.find?_cons, hp]
    · have hrest : rest.any (fun q => q.1 == k) = true := by
        simp only [List.any_cons, Bool.or_eq_true] at h
        tauto
      have hfp : (if (p.1 == k) = true then (k, v) else p) = p := if_neg hp
      have hstep :
          List.find? (fun q : K × V => q.1 == k)
              (p :: List.map (fun q : K × V => if (q.1 == k) = true then (k, v) else q) rest) =
            List.find? (fun q : K × V => q.1 == k)
              (List.map (fun q : K × V => if (q.1 == k) = true then (k, v) else q) rest) :=
        List.find?_cons_of_neg _ hp
      rw [List.map_cons, hfp, hstep]
      exact ih hrest

theorem find?_key_cons (a : K × V) (l : List (K × V)) (k : K) :
    List.find? (fun p : K × V => p.1 == k) (a :: l) =
      if (a.1 == k) = true then some a else List.find? (fun p : K × V => p.1 == k) l := by
  cases h : (a.1 == k) <;> simp [List.find?_cons, h]

theorem dictGet_insert_self (d : List (K × V)) (k : K) (v : V) :
    dictGet (dictInsert d k v) k = some v := by
  unfold dictInsert dictGet
  split
  next h =>
    rw [find?_map_overwrite d k v h]
    rfl
  next h =>
    rw [List.find?_append]
    have hnone : d.find? (fun p => p.1 == k) = none := by
      rw [List.find?_eq_none]
      intro p hp hpk
      exact h (List.any_eq_true.mpr ⟨p, hp, hpk⟩)
    rw [hnone]
    simp [find?_key_cons]

theorem find?_map_overwrite_ne (d : List (K × V)) (k1 k : K) (v : V) (hne : k1 ≠ k) :
    (d.map (fun p => if p.1 == k1 then (k1, v) else p)).find? (fun p => p.1 == k) =
      d.find? (fun p => p.1 == k) := by
  induction d with
  | nil => simp
  | cons p rest ih =>
    rw [List.map_cons, find?_key_cons p rest k]
    by_cases hp : (p.1 == k1) = true
    · have hpk : p.1 = k1 := by simpa using hp
      have h1 : ((k1 : K) == k) = false := beq_eq_false_iff_ne.mpr hne
      have h2 : (p.1 == k) = false := by rw [hpk]; exact h1
      rw [if_pos hp, find?_key_cons (k1, v), h2]
      simp only [h1, Bool.false_eq_true, if_false, ite_false]
      exact ih
    · rw [if_neg hp, find?_key_cons p]
      by_cases h2 : (p.1 == k) = true
      · rw [if_pos h2, if_pos h2]
      · rw [if_neg h2, if_neg h2]
        exact ih

theorem dictGet_insert_ne (d : List (K × V)) (k1 k : K) (v : V) (hne : k1 ≠ k) :
    dictGet (dictInsert d k1 v) k = dictGet d k := by
  unfold dictInsert dictGet
  split
  next h =>
    rw [find?_map_overwrite_ne d k1 k v hne]
  next h =>
    rw [List.find?_append]
    have h1 : ((k1 : K) == k) = false := beq_eq_false_iff_ne.mpr hne
    simp [find?_key_cons, h1]

theorem dictGet_foldl_insert {A : Type} (kf : A → K) (vf : A → V)
    (rows : List A) (d : List (K × V)) (k : K) :
    dictGet (rows.foldl (fun acc r => dictInsert acc (kf r) (vf r)) d) k =
      match rows.reverse.find? (fun r => kf r == k) with
      | some r => some (vf r)
      | none => dictGet d k := by
  induction rows generalizing d with
  | nil => simp
  | cons r rest ih =>
    simp only [List.foldl_cons, List.reverse_cons]
    rw [ih, List.find?_append]
    cases hfind : rest.reverse.find? (fun a => kf a == k) with
    | some a => simp
    | none =>
      simp only [Option.none_or]
      by_cases hk : kf r = k
      · have hkb : (kf r == k) = true := by simpa using hk
        simp only [List.find?_cons, hkb]
        rw [hk]
        exact dictGet_insert_self d k (vf r)
      · have hkb : (kf r == k) = false := beq_eq_false_iff_ne.mpr hk
        simp only [List.find?_cons, hkb, List.find?_nil]
        exact dictGet_insert_ne d (kf r) k (vf r) hk

theorem dictGet_eq_none_iff (d : List (K × V)) (k : K) :
    dictGet d k = none ↔ ∀ p ∈ d, p.1 ≠ k := by
  unfold dictGet
  rw [Option.map_eq_none', List.find?_eq_none]
  constructor
  · intro h p hp
    have hb := h p hp
    simpa using hb
  · intro h p hp
    simpa using h p hp

theorem any_key_eq_isSome (d : List (K × V)) (k : K) :
    d.any (fun p => p.1 == k) = (dictGet d k).isSome := by
  cases hd : dictGet d k with
  | some v =>
    have : ∃ p ∈ d, (p.1 == k) = true := by
      unfold dictGet at hd
      cases hf : d.find? (fun p => p.1 == k) with
      | none => rw [hf] at hd; simp at hd
      | some p =>
        have hmem := List.mem_of_find?_eq_some hf
        have hpk := List.find?_some hf
        exact ⟨p, hmem, hpk⟩
    simp [List.any_eq_true.mpr this]
  | none =>
    have hall := (dictGet_eq_none_iff d k).mp hd
    simp only [Option.isSome_none]
    rw [List.any_eq_false]
    intro p hp
    simpa using hall p hp

end DictLemmas

/-! ## Except bind facts -/

theorem exc_bind_ok {ε α β : Type} (a : α) (f : α → Except ε β) :
    (Except.ok a >>= f) = f a := rfl

theorem exc_bind_error {ε α β : Type} (e : ε) (f : α → Except ε β) :
    ((Except.error e : Except ε α) >>= f) = Except.error e := rfl

/-! ## Claims about the station index (C4, C5) -/

/-- Claim C5 (amended): when two identifiers canonicalize to the same
non-empty key, the later one observed wins in the active index — for every
key, the lookup returns the id of the last station row whose normalized
name equals it; no collision count or key list is recorded anywhere. -/
theorem index_later_wins (rows : List StationRow) (k : Str) :
    dictGet (buildNameToId rows) k =
      (rows.reverse.find? (fun r => normalize_name r.station_name == k)).map
        (fun r => r.station_id) := by
  unfold buildNameToId
  rw [dictGet_foldl_insert (fun r => normalize_name r.station_name)
    (fun r => r.station_id) rows [] k]
  cases hf : rows.reverse.find? (fun r => normalize_name r.station_name == k) with
  | some a => simp
  | none => simp [dictGet]

/-- Claim C5, counterexample to the claim as stated: the index built from
two colliding stations is *identical* to the index built from the later
station alone — the build output carries no collision count and no list of
affected keys, so nothing is "recorded and surfaced"; the later id wins
silently. -/
theorem collision_not_recorded_counterexample :
    buildNameToId [⟨some ['A'], .pstr "s1"⟩, ⟨some ['A'], .pstr "s2"⟩] =
      buildNameToId [⟨some ['A'], .pstr "s2"⟩] ∧
    dictGet (buildNameToId [⟨some ['A'], .pstr "s1"⟩, ⟨some ['A'], .pstr "s2"⟩]) ['a'] =
      some (.pstr "s2") :=
  ⟨by decide, by decide⟩

/-- Claim C4, counterexample to the claim as stated: a station whose name
is null canonicalizes to the empty key and *is* stored under it; a
connection whose endpoint labels are null resolves through the empty key
to that station's identifier, and the edge is added (two empty-key inputs
match each other). -/
theorem empty_key_resolves_counterexample :
    normalize_name none = [] ∧
    dictGet (buildNameToId [⟨none, .pstr "S1"⟩]) [] = some (.pstr "S1") ∧
    buildNetworkMain [⟨none, .pstr "S1"⟩]
        [⟨none, none, 5, .ymissing, "rail_both", none⟩] =
      .ok ⟨[⟨.pstr "S1", .pstr "S1", 5, none, .ymissing, "rail_both", none⟩], 1, []⟩ :=
  ⟨rfl, rfl, rfl⟩

/-- Claim C4 (amended): the index does not special-case the empty key.
Any two labels canonicalizing to the empty key resolve identically (so
they match each other whenever some station's name canonicalizes to the
empty key), and an empty-key lookup fails exactly when no station row's
normalized name is empty. -/
theorem empty_key_lookup_behavior (stations : List StationRow) (a b : Option Str)
    (ha : normalize_name a = []) (hb : normalize_name b = []) :
    dictGet (buildNameToId stations) (normalize_name a) =
      dictGet (buildNameToId stations) (normalize_name b) ∧
    (dictGet (buildNameToId stations) (normalize_name a) = none ↔
      ∀ r ∈ stations, normalize_name r.station_name ≠ []) := by
  constructor
  · rw [ha, hb]
  · rw [ha]
    unfold buildNameToId
    rw [dictGet_foldl_insert (fun r => normalize_name r.station_name)
      (fun r => r.station_id) stations [] []]
    cases hf : stations.reverse.find? (fun r => normalize_name r.station_name == ([] : Str)) with
    | some r =>
      constructor
      · intro h
        simp at h
      · intro h
        exfalso
        have hmem := List.mem_of_find?_eq_some hf
        have hr := List.find?_some hf
        rw [List.mem_reverse] at hmem
        exact h r hmem (by simpa using hr)
    | none =>
      constructor
      · intro _ r hr hcontra
        have hnone := List.find?_eq_none.mp hf r (List.mem_reverse.mpr hr)
        exact hnone (by simpa using hcontra)
      · intro _
        rfl

/-- Witness for `empty_key_lookup_behavior` at a concrete index: the null
label and the label `"()"` (all punctuation) both canonicalize to the
empty key. -/
theorem empty_key_lookup_behavior_witness :
    normalize_name (some ['(', ')']) = [] ∧
    (dictGet (buildNameToId [⟨some ['x'], .pstr "S9"⟩]) (normalize_name none) =
        dictGet (buildNameToId [⟨some ['x'], .pstr "S9"⟩]) (normalize_name (some ['(', ')'])) ∧
      (dictGet (buildNameToId [⟨some ['x'], .pstr "S9"⟩]) (normalize_name none) = none ↔
        ∀ r ∈ [(⟨some ['x'], .pstr "S9"⟩ : StationRow)], normalize_name r.station_name ≠ [])) :=
  ⟨by decide,
    empty_key_lookup_behavior [⟨some ['x'], .pstr "S9"⟩] none (some ['(', ')'])
      (by decide) (by decide)⟩

/-! ## Claims about the edge loop (C2, C6, C9) -/

/-- Claim C9: an endpoint whose label resolves in the index to a falsy
identifier (integer `0` or the empty string) is treated exactly like an
unresolved endpoint: the connection is skipped, no edge is added, and the
raw endpoint label is appended to `missing_stations`, even though the
lookup succeeded. -/
theorem falsy_id_treated_unresolved (idx : List (Str × PyId)) (st : BuildSt)
    (row : TrackRow) (v : PyId)
    (hfind : dictGet idx (normalize_name row.start_station) = some v)
    (hfalsy : v.truthy = false) :
    addTrack idx st row =
      .ok { st with
              missing_stations :=
                st.missing_stations ++ [row.start_station]
                  ++ (if optTruthy (dictGet idx (normalize_name row.end_station)) then []
                      else [row.end_station]) } := by
  have h1 : optTruthy (dictGet idx (normalize_name row.start_station)) = false := by
    rw [hfind]
    simpa [optTruthy] using hfalsy
  simp [addTrack, h1]

/-- Witness for `falsy_id_treated_unresolved`: a lookup succeeding with
the integer id `0` is skipped and reported missing. -/
theorem falsy_id_treated_unresolved_witness :
    dictGet [(['a'], PyId.pint 0), (['b'], PyId.pstr "S2")]
        (normalize_name (some ['a'])) = some (.pint 0) ∧
    addTrack [(['a'], PyId.pint 0), (['b'], PyId.pstr "S2")] ⟨[], 0, []⟩
        ⟨some ['a'], some ['b'], 3, .ynum 1, "road", none⟩ =
      .ok { (⟨[], 0, []⟩ : BuildSt) with
              missing_stations :=
                ([] : List (Option Str)) ++ [some ['a']]
                  ++ (if optTruthy (dictGet [(['a'], PyId.pint 0), (['b'], PyId.pstr "S2")]
                        (normalize_name (some ['b']))) then []
                      else [some ['b']]) } :=
  ⟨by decide,
    falsy_id_treated_unresolved [(['a'], PyId.pint 0), (['b'], PyId.pstr "S2")] ⟨[], 0, []⟩
      ⟨some ['a'], some ['b'], 3, .ynum 1, "road", none⟩ (.pint 0) (by decide) (by decide)⟩

/-- Claim C6, counterexample to the claim as stated: a track whose year
cell holds the non-numeric string `"unk"` makes the whole build abort with
`ValueError` — the error is not localized to the record (a later,
well-formed record is lost too) and no graph is produced. -/
theorem bad_year_aborts_counterexample :
    buildNetworkMain
        [⟨some ['a'], .pstr "S1"⟩, ⟨some ['b'], .pstr "S2"⟩]
        [⟨some ['a'], some ['b'], 10, .ystr ['u', 'n', 'k'], "rail_both", none⟩,
         ⟨some ['a'], some ['b'], 12, .ynum 1990, "rail_both", none⟩] =
      .error "ValueError" := rfl

/-- Claim C6 (amended): a present but non-numeric year raises `ValueError`
inside the edge loop once both endpoints resolve; the exception escapes
the loop (it is caught only by the script's top-level handler), so the
whole build aborts regardless of how many records follow. -/
theorem bad_year_aborts_build (idx : List (Str × PyId)) (pre post : List TrackRow)
    (t : TrackRow) (st1 : BuildSt) (e : String)
    (hpre : processTracks idx pre = .ok st1)
    (hs : optTruthy (dictGet idx (normalize_name t.start_station)) = true)
    (ht : optTruthy (dictGet idx (normalize_name t.end_station)) = true)
    (hy : parseYearPy t.year = .error e) :
    processTracks idx (pre ++ t :: post) = .error e := by
  unfold processTracks at hpre ⊢
  rw [List.foldlM_append, hpre, exc_bind_ok]
  have hstep : addTrack idx st1 t = .error e := by
    simp [addTrack, hs, ht, hy]
  rw [List.foldlM_cons, hstep, exc_bind_error]

/-- Witness for `bad_year_aborts_build` at a concrete index and track
list. -/
theorem bad_year_aborts_build_witness :
    processTracks [(['a'], PyId.pstr "S1"), (['b'], PyId.pstr "S2")]
        ([] ++ (⟨some ['a'], some ['b'], 10, .ystr ['u', 'n', 'k'], "rail_both", none⟩ : TrackRow)
          :: [⟨some ['a'], some ['b'], 12, .ynum 1990, "rail_both", none⟩]) =
      .error "ValueError" :=
  bad_year_aborts_build [(['a'], PyId.pstr "S1"), (['b'], PyId.pstr "S2")] [] _ _ ⟨[], 0, []⟩
    "ValueError" rfl (by decide) (by decide) rfl

/-- Claim C2, counterexample to the claim as stated: `build_networkx_graph`
builds an `nx.Graph`, so two edge records with the same endpoints but
different attributes produce ONE edge, the later record's attributes
overwriting the earlier ones. -/
theorem nx_graph_merges_parallel_records :
    (build_networkx_graph
        [⟨1, some 10, some 20, none, none, none, none, none⟩,
         ⟨2, some 11, some 21, none, none, none, none, none⟩]
        [⟨1, 2, 100, 1, 10⟩, ⟨1, 2, 101, 2, 20⟩]).edges =
      [((1, 2), ⟨101, 2, 20⟩)] := by decide

/-- Claim C2 (amended): the `nx.MultiDiGraph` builder of
`network/build network.py` preserves two records with identical resolved
endpoints as two distinct parallel edges, each retaining its own length,
year and type; `build_networkx_graph` of
`analysis/build and plot the network.py` instead merges them (see the
counterexample). -/
theorem multidigraph_preserves_parallel_edges (idx : List (Str × PyId))
    (t1 t2 : TrackRow) (y1 y2 : Option ℤ)
    (h1s : optTruthy (dictGet idx (normalize_name t1.start_station)) = true)
    (h1e : optTruthy (dictGet idx (normalize_name t1.end_station)) = true)
    (h2s : optTruthy (dictGet idx (normalize_name t2.start_station)) = true)
    (h2e : optTruthy (dictGet idx (normalize_name t2.end_station)) = true)
    (hy1 : parseYearPy t1.year = .ok y1) (hy2 : parseYearPy t2.year = .ok y2)
    (hsame1 : normalize_name t1.start_station = normalize_name t2.start_station)
    (hsame2 : normalize_name t1.end_station = normalize_name t2.end_station) :
    processTracks idx [t1, t2] =
      .ok { edges := [trackEdge idx t1 y1, trackEdge idx t2 y2]
            edges_added := 2
            missing_stations := [] } ∧
    (t1.length ≠ t2.length → trackEdge idx t1 y1 ≠ trackEdge idx t2 y2) := by
  constructor
  · have s1 : addTrack idx ⟨[], 0, []⟩ t1 = .ok ⟨[trackEdge idx t1 y1], 1, []⟩ := by
      simp [addTrack, h1s, h1e, hy1]
    have s2 : addTrack idx ⟨[trackEdge idx t1 y1], 1, []⟩ t2 =
        .ok ⟨[trackEdge idx t1 y1, trackEdge idx t2 y2], 2, []⟩ := by
      simp [addTrack, h2s, h2e, hy2]
    unfold processTracks
    rw [List.foldlM_cons, s1, exc_bind_ok, List.foldlM_cons, s2, exc_bind_ok]
    rfl
  · intro hne heq
    have hlen := congrArg EdgeRec.length heq
    simp [trackEdge] at hlen
    exact hne hlen

/-- Witness for `multidigraph_preserves_parallel_edges`: two records
between the same two stations with different lengths yield two edges. -/
theorem multidigraph_preserves_parallel_edges_witness :
    processTracks [(['a'], PyId.pstr "S1"), (['b'], PyId.pstr "S2")]
        [⟨some ['a'], some ['b'], 10, .ynum 1990, "rail_both", none⟩,
         ⟨some ['a'], some ['b'], 20, .ymissing, "road", none⟩] =
      .ok { edges :=
              [trackEdge [(['a'], PyId.pstr "S1"), (['b'], PyId.pstr "S2")]
                  ⟨some ['a'], some ['b'], 10, .ynum 1990, "rail_both", none⟩ (some 1990),
               trackEdge [(['a'], PyId.pstr "S1"), (['b'], PyId.pstr "S2")]
                  ⟨some ['a'], some ['b'], 20, .ymissing, "road", none⟩ none]
            edges_added := 2
            missing_stations := [] } ∧
    ((10 : ℚ) ≠ 20 →
      trackEdge [(['a'], PyId.pstr "S1"), (['b'], PyId.pstr "S2")]
          ⟨some ['a'], some ['b'], 10, .ynum 1990, "rail_both", none⟩ (some 1990) ≠
        trackEdge [(['a'], PyId.pstr "S1"), (['b'], PyId.pstr "S2")]
          ⟨some ['a'], some ['b'], 20, .ymissing, "road", none⟩ none) :=
  multidigraph_preserves_parallel_edges [(['a'], PyId.pstr "S1"), (['b'], PyId.pstr "S2")]
    ⟨some ['a'], some ['b'], 10, .ynum 1990, "rail_both", none⟩
    ⟨some ['a'], some ['b'], 20, .ymissing, "road", none⟩ (some 1990) none
    (by decide) (by decide) (by decide) (by decide) rfl rfl rfl rfl

/-! ## Claims about `build_networkx_graph` (C10) and density (C8) -/

theorem any_nodesOf (stations : List Station2) (i : ℤ) :
    ((nodesOf stations).any (fun p => p.1 == i) = true) ↔
      ∃ s ∈ stations, s.station_id = i := by
  rw [any_key_eq_isSome]
  unfold nodesOf
  rw [dictGet_foldl_insert (fun s : Station2 => s.station_id)
    (fun s : Station2 => s.attrs) stations [] i]
  cases hf : stations.reverse.find? (fun s => s.station_id == i) with
  | some s =>
    have hmem := List.mem_of_find?_eq_some hf
    have hs := List.find?_some hf
    rw [List.mem_reverse] at hmem
    constructor
    · intro _
      exact ⟨s, hmem, by simpa using hs⟩
    · intro _
      rfl
  | none =>
    constructor
    · intro h
      exact absurd h (by simp [dictGet])
    · rintro ⟨s, hsmem, hsi⟩
      exfalso
      have hnone := List.find?_eq_none.mp hf s (List.mem_reverse.mpr hsmem)
      exact hnone (by simpa using hsi)

theorem mem_nxAddEdge (es : List ((ℤ × ℤ) × EAttrs)) (u v : ℤ) (a : EAttrs)
    (p : (ℤ × ℤ) × EAttrs) (hp : p ∈ nxAddEdge es u v a) :
    (∃ q ∈ es, q.1 = p.1) ∨ p.1 = (u, v) := by
  unfold nxAddEdge at hp
  split at hp
  · rcases List.mem_map.mp hp with ⟨q, hq, hfq⟩
    by_cases hsq : sameUndirected q.1 (u, v) = true
    · rw [if_pos hsq] at hfq
      left
      exact ⟨q, hq, by rw [← hfq]⟩
    · rw [if_neg hsq] at hfq
      left
      exact ⟨q, hq, by rw [← hfq]⟩
  · rcases List.mem_append.mp hp with h | h
    · left
      exact ⟨p, h, rfl⟩
    · right
      have hpe : p = ((u, v), a) := by simpa using h
      rw [hpe]

theorem edges_fold_endpoints (stations : List Station2) (edges : List EdgeRow2)
    (acc : List ((ℤ × ℤ) × EAttrs))
    (hacc : ∀ p ∈ acc,
      (∃ s ∈ stations, s.station_id = p.1.1) ∧ (∃ s ∈ stations, s.station_id = p.1.2)) :
    ∀ p ∈ edges.foldl (fun es e =>
        if ((nodesOf stations).any (fun q => q.1 == e.source_station))
            && ((nodesOf stations).any (fun q => q.1 == e.target_station)) then
          nxAddEdge es e.source_station e.target_station ⟨e.edge_id, e.seg_id, e.length_km⟩
        else es) acc,
      (∃ s ∈ stations, s.station_id = p.1.1) ∧ (∃ s ∈ stations, s.station_id = p.1.2) := by
  induction edges generalizing acc with
  | nil => simpa using hacc
  | cons e rest ih =>
    intro p hp
    simp only [List.foldl_cons] at hp
    refine ih _ ?_ p hp
    intro q hq
    split at hq
    next hcond =>
      rcases mem_nxAddEdge _ _ _ _ q hq with ⟨r, hr, hrq⟩ | hq1
      · rw [← hrq]
        exact hacc r hr
      · rw [Bool.and_eq_true] at hcond
        obtain ⟨h1, h2⟩ := hcond
        rw [hq1]
        exact ⟨(any_nodesOf stations _).mp h1, (any_nodesOf stations _).mp h2⟩
    next =>
      exact hacc q hq

/-- Claim C10: every edge of the graph returned by `build_networkx_graph`
has both endpoints among the station ids of the station records, and an
edge record with an endpoint outside the node set is dropped silently —
the build's entire output on such an input is identical to the output
without that record (no diagnostic of any kind is produced). -/
theorem graph_edges_within_station_nodes (stations : List Station2) (edges : List EdgeRow2) :
    (∀ p ∈ (build_networkx_graph stations edges).edges,
        (∃ s ∈ stations, s.station_id = p.1.1) ∧ (∃ s ∈ stations, s.station_id = p.1.2)) ∧
    (∀ bad : EdgeRow2,
        ((∀ s ∈ stations, s.station_id ≠ bad.source_station) ∨
          (∀ s ∈ stations, s.station_id ≠ bad.target_station)) →
        build_networkx_graph stations (edges ++ [bad]) = build_networkx_graph stations edges) := by
  constructor
  · intro p hp
    exact edges_fold_endpoints stations edges [] (by intro q hq; simp at hq) p hp
  · intro bad hbad
    unfold build_networkx_graph
    have hcond :
        (((nodesOf stations).any (fun q => q.1 == bad.source_station))
          && ((nodesOf stations).any (fun q => q.1 == bad.target_station))) = false := by
      rcases hbad with h | h
      · have h1 : ((nodesOf stations).any (fun q => q.1 == bad.source_station)) = false := by
          rw [← Bool.not_eq_true, any_nodesOf]
          rintro ⟨s, hsmem, hsi⟩
          exact h s hsmem hsi
        rw [h1, Bool.false_and]
      · have h2 : ((nodesOf stations).any (fun q => q.1 == bad.target_station)) = false := by
          rw [← Bool.not_eq_true, any_nodesOf]
          rintro ⟨s, hsmem, hsi⟩
          exact h s hsmem hsi
        rw [h2, Bool.and_false]
    rw [List.foldl_append]
    simp only [List.foldl_cons, List.foldl_nil, hcond, Bool.false_eq_true, if_false]

/-- Witness for `graph_edges_within_station_nodes`: an edge record whose
target id `99` is no station is dropped without trace. -/
theorem graph_edges_within_station_nodes_witness :
    build_networkx_graph [⟨1, some 10, some 20, none, none, none, none, none⟩]
        ([] ++ [⟨1, 99, 7, 7, 7⟩]) =
      build_networkx_graph [⟨1, some 10, some 20, none, none, none, none, none⟩] [] :=
  (graph_edges_within_station_nodes [⟨1, some 10, some 20, none, none, none, none, none⟩] []).2
    ⟨1, 99, 7, 7, 7⟩ (Or.inr (by decide))

/-- Claim C8: `nx.density` never divides by zero — for fewer than two
vertices (in particular the zero-vertex graph) and for the zero-edge graph
it is literally 0, and whenever the guard passes the denominator
`n * (n - 1)` is nonzero; the statistics entry for a built graph is this
function of its node and edge counts. -/
theorem density_guard_total (n m : ℕ) :
    (n < 2 → nx_density n m = 0) ∧
    (nx_density n 0 = 0) ∧
    (2 ≤ n → 1 ≤ m →
      ((n : ℚ) * ((n : ℚ) - 1) ≠ 0 ∧
        nx_density n m = 2 * ((m : ℚ) / ((n : ℚ) * ((n : ℚ) - 1))))) ∧
    (∀ g : NXGraph, g.nodes.length = n → g.edges.length = m →
        networkStatsDensity g = nx_density n m) := by
  refine ⟨?_, ?_, ?_, ?_⟩
  · intro h
    have hn : n ≤ 1 := by omega
    simp [nx_density, hn]
  · simp [nx_density]
  · intro h1 h2
    have hn2 : (2 : ℚ) ≤ (n : ℚ) := by exact_mod_cast h1
    have hpos : 0 < (n : ℚ) * ((n : ℚ) - 1) := by nlinarith
    constructor
    · exact ne_of_gt hpos
    · have hguard : ¬(m = 0 ∨ n ≤ 1) := by omega
      simp [nx_density, hguard]
  · intro g hg1 hg2
    unfold networkStatsDensity
    rw [hg1, hg2]

/-- Witness for `density_guard_total` at the zero-vertex graph and at a
guard-passing pair. -/
theorem density_guard_total_witness :
    ((0 : ℕ) < 2 ∧ nx_density 0 7 = 0) ∧
    (2 ≤ (5 : ℕ) ∧ 1 ≤ (3 : ℕ) ∧
      ((5 : ℚ) * ((5 : ℚ) - 1) ≠ 0 ∧
        nx_density 5 3 = 2 * ((3 : ℚ) / ((5 : ℚ) * ((5 : ℚ) - 1))))) :=
  ⟨⟨by decide, (density_guard_total 0 7).1 (by decide)⟩,
   ⟨by decide, by decide, by
      have h := (density_guard_total 5 3).2.2.1 (by decide) (by decide)
      exact_mod_cast h⟩⟩

/-! ## Argmin lemmas (C7) -/

theorem argminL_lt_length {α : Type} [LinearOrder α] (l : List α) (h : l ≠ []) :
    argminL l < l.length := by
  induction l with
  | nil => exact absurd rfl h
  | cons x xs ih =>
    cases xs with
    | nil => simp [argminL]
    | cons y rest =>
      have hlt := ih (by simp)
      rw [show argminL (x :: y :: rest) =
        (if x ≤ (y :: rest).getD (argminL (y :: rest)) y then 0
         else argminL (y :: rest) + 1) from rfl]
      split
      · simp
      · simp only [List.length_cons] at hlt ⊢
        omega

theorem getD_switch_default {α : Type} (l : List α) (i : ℕ) (hi : i < l.length) (d1 d2 : α) :
    l.getD i d1 = l.getD i d2 := by
  rw [List.getD_eq_getElem l d1 hi, List.getD_eq_getElem l d2 hi]

theorem argminL_le {α : Type} [LinearOrder α] (l : List α) (j : ℕ) (hj : j < l.length) (d : α) :
    l.getD (argminL l) d ≤ l.getD j d := by
  induction l generalizing j with
  | nil => simp at hj
  | cons x xs ih =>
    cases xs with
    | nil =>
      have hj0 : j = 0 := by
        simp only [List.length_cons, List.length_nil] at hj
        omega
      subst hj0
      simp [argminL]
    | cons y rest =>
      have hjm : argminL (y :: rest) < (y :: rest).length :=
        argminL_lt_length (y :: rest) (by simp)
      rw [show argminL (x :: y :: rest) =
        (if x ≤ (y :: rest).getD (argminL (y :: rest)) y then 0
         else argminL (y :: rest) + 1) from rfl]
      split
      next hle =>
        rw [List.getD_cons_zero]
        cases j with
        | zero => simp
        | succ k =>
          rw [List.getD_cons_succ]
          have hk : k < (y :: rest).length := by
            simpa [Nat.succ_lt_succ_iff] using hj
          calc x ≤ (y :: rest).getD (argminL (y :: rest)) y := hle
            _ = (y :: rest).getD (argminL (y :: rest)) d := getD_switch_default _ _ hjm y d
            _ ≤ (y :: rest).getD k d := ih k hk
      next hgt =>
        rw [List.getD_cons_succ]
        cases j with
        | zero =>
          rw [List.getD_cons_zero]
          have hx : (y :: rest).getD (argminL (y :: rest)) y < x := lt_of_not_le hgt
          rw [getD_switch_default _ _ hjm y d] at hx
          exact le_of_lt hx
        | succ k =>
          rw [List.getD_cons_succ]
          have hk : k < (y :: rest).length := by
            simpa [Nat.succ_lt_succ_iff] using hj
          exact ih k hk

theorem argminL_first {α : Type} [LinearOrder α] (l : List α) (j : ℕ)
    (hj : j < argminL l) (d : α) :
    l.getD (argminL l) d < l.getD j d := by
  induction l generalizing j with
  | nil => simp [argminL] at hj
  | cons x xs ih =>
    cases xs with
    | nil => simp [argminL] at hj
    | cons y rest =>
      have hjm : argminL (y :: rest) < (y :: rest).length :=
        argminL_lt_length (y :: rest) (by simp)
      rw [show argminL (x :: y :: rest) =
        (if x ≤ (y :: rest).getD (argminL (y :: rest)) y then 0
         else argminL (y :: rest) + 1) from rfl] at hj ⊢
      split at hj
      · omega
      next hgt =>
        rw [if_neg hgt, List.getD_cons_succ]
        cases j with
        | zero =>
          rw [List.getD_cons_zero]
          have hx : (y :: rest).getD (argminL (y :: rest)) y < x := lt_of_not_le hgt
          rw [getD_switch_default _ _ hjm y d] at hx
          exact hx
        | succ k =>
          rw [List.getD_cons_succ]
          exact ih k (by omega)

/-! ## Bridging the float pipeline to the real pipeline (C7) -/

theorem firstIdxWhere_map_pval (l : List ℝ) :
    firstIdxWhere (fun x => x.isNan) (l.map PFloat.pval) = none := by
  induction l with
  | nil => rfl
  | cons x xs ih =>
    rw [List.map_cons]
    show (firstIdxWhere (fun z : PFloat => z.isNan) (xs.map PFloat.pval)).map (fun i => i + 1) = none
    rw [ih]
    rfl

theorem npArgminF_map_pval (l : List ℝ) :
    npArgminF (l.map PFloat.pval) = argminL l := by
  unfold npArgminF
  rw [firstIdxWhere_map_pval]
  have hval : (l.map PFloat.pval).map PFloat.val = l := by
    rw [List.map_map]
    exact List.map_id'' (fun x => rfl) l
  rw [hval]

theorem assign_dists_eq (cities : List CityRow) (qlon qlat : ℚ) :
    cities.map (fun c =>
        haversineF (.pval (qlon : ℝ)) (.pval (qlat : ℝ)) (.pval (c.lon : ℝ)) (.pval (c.lat : ℝ))) =
      (geoDists cities qlon qlat).map PFloat.pval := by
  unfold geoDists
  rw [List.map_map]
  exact List.map_congr_left (fun c hc => rfl)

theorem getD_map_pval (l : List ℝ) (i : ℕ) (hi : i < l.length) :
    (l.map PFloat.pval).getD i .pnan = .pval (l.getD i 0) := by
  have hi2 : i < (l.map PFloat.pval).length := by simpa using hi
  rw [List.getD_eq_getElem _ _ hi2, List.getD_eq_getElem _ _ hi]
  simp

/-- Claim C7: for a query point with valid numeric coordinates the loop
assigns `assigned_by_nearest_city`, selects the reference point whose
haversine distance is minimal, records exactly that city and distance, and
on ties picks the first-encountered reference point in input order: every
strictly earlier index has strictly larger distance. -/
theorem assign_selects_nearest_first (cities : List CityRow) (st : StationGeo)
    (qlon qlat : ℚ)
    (hne : cities ≠ [])
    (hlon : st.longitude = .fnum qlon) (hlat : st.latitude = .fnum qlat) :
    (assignStation cities st).prov_assign_method = "assigned_by_nearest_city" ∧
    (assignStation cities st).nearest_city =
      (cities.getD (argminL (geoDists cities qlon qlat)) default).name ∧
    (assignStation cities st).distance_to_city_km =
      .pval ((geoDists cities qlon qlat).getD (argminL (geoDists cities qlon qlat)) 0) ∧
    argminL (geoDists cities qlon qlat) < cities.length ∧
    (∀ j, j < cities.length →
      (geoDists cities qlon qlat).getD (argminL (geoDists cities qlon qlat)) 0 ≤
        (geoDists cities qlon qlat).getD j 0) ∧
    (∀ j, j < argminL (geoDists cities qlon qlat) →
      (geoDists cities qlon qlat).getD (argminL (geoDists cities qlon qlat)) 0 <
        (geoDists cities qlon qlat).getD j 0) := by
  have hgl : (geoDists cities qlon qlat).length = cities.length := by
    simp [geoDists]
  have hnegd : geoDists cities qlon qlat ≠ [] := by
    simp [geoDists]
    exact hne
  have harg : argminL (geoDists cities qlon qlat) < cities.length := by
    rw [← hgl]
    exact argminL_lt_length _ hnegd
  have hargd : argminL (geoDists cities qlon qlat) < (geoDists cities qlon qlat).length := by
    rw [hgl]
    exact harg
  simp only [assignStation, hlon, hlat, pyFloat]
  rw [assign_dists_eq cities qlon qlat, npArgminF_map_pval]
  refine ⟨trivial, rfl, ?_, harg, ?_, ?_⟩
  · exact getD_map_pval _ _ hargd
  · intro j hj
    exact argminL_le _ j (by rw [hgl]; exact hj) 0
  · intro j hj
    exact argminL_first _ j hj 0

/-- Witness for `assign_selects_nearest_first` at a two-city gazetteer and
the query point `(1, 1)`. -/
theorem assign_selects_nearest_first_witness :
    ([⟨"CityX", "ProvA", 0, 0⟩, ⟨"CityY", "ProvB", 10, 10⟩] : List CityRow) ≠ [] ∧
    ((assignStation [⟨"CityX", "ProvA", 0, 0⟩, ⟨"CityY", "ProvB", 10, 10⟩]
          ⟨"S1", .fnum 1, .fnum 1⟩).prov_assign_method = "assigned_by_nearest_city" ∧
      (assignStation [⟨"CityX", "ProvA", 0, 0⟩, ⟨"CityY", "ProvB", 10, 10⟩]
          ⟨"S1", .fnum 1, .fnum 1⟩).nearest_city =
        (([⟨"CityX", "ProvA", 0, 0⟩, ⟨"CityY", "ProvB", 10, 10⟩] : List CityRow).getD
          (argminL (geoDists [⟨"CityX", "ProvA", 0, 0⟩, ⟨"CityY", "ProvB", 10, 10⟩] 1 1))
          default).name ∧
      (assignStation [⟨"CityX", "ProvA", 0, 0⟩, ⟨"CityY", "ProvB", 10, 10⟩]
          ⟨"S1", .fnum 1, .fnum 1⟩).distance_to_city_km =
        .pval ((geoDists [⟨"CityX", "ProvA", 0, 0⟩, ⟨"CityY", "ProvB", 10, 10⟩] 1 1).getD
          (argminL (geoDists [⟨"CityX", "ProvA", 0, 0⟩, ⟨"CityY", "ProvB", 10, 10⟩] 1 1)) 0) ∧
      argminL (geoDists [⟨"CityX", "ProvA", 0, 0⟩, ⟨"CityY", "ProvB", 10, 10⟩] 1 1) <
        ([⟨"CityX", "ProvA", 0, 0⟩, ⟨"CityY", "ProvB", 10, 10⟩] : List CityRow).length ∧
      (∀ j, j < ([⟨"CityX", "ProvA", 0, 0⟩, ⟨"CityY", "ProvB", 10, 10⟩] : List CityRow).length →
        (geoDists [⟨"CityX", "ProvA", 0, 0⟩, ⟨"CityY", "ProvB", 10, 10⟩] 1 1).getD
            (argminL (geoDists [⟨"CityX", "ProvA", 0, 0⟩, ⟨"CityY", "ProvB", 10, 10⟩] 1 1)) 0 ≤
          (geoDists [⟨"CityX", "ProvA", 0, 0⟩, ⟨"CityY", "ProvB", 10, 10⟩] 1 1).getD j 0) ∧
      (∀ j, j < argminL (geoDists [⟨"CityX", "ProvA", 0, 0⟩, ⟨"CityY", "ProvB", 10, 10⟩] 1 1) →
        (geoDists [⟨"CityX", "ProvA", 0, 0⟩, ⟨"CityY", "ProvB", 10, 10⟩] 1 1).getD
            (argminL (geoDists [⟨"CityX", "ProvA", 0, 0⟩, ⟨"CityY", "ProvB", 10, 10⟩] 1 1)) 0 <
          (geoDists [⟨"CityX", "ProvA", 0, 0⟩, ⟨"CityY", "ProvB", 10, 10⟩] 1 1).getD j 0)) :=
  ⟨by decide,
    assign_selects_nearest_first [⟨"CityX", "ProvA", 0, 0⟩, ⟨"CityY", "ProvB", 10, 10⟩]
      ⟨"S1", .fnum 1, .fnum 1⟩ 1 1 (by decide) rfl rfl⟩

/-! ## Claim C1: missing vs non-numeric coordinates -/

/-- Claim C1 evaluated at the failing input: a station whose latitude cell
is *missing* (pandas NaN) is NOT caught by `except (ValueError,
TypeError)` — `float(nan)` succeeds — so every haversine distance is NaN,
`np.argmin` returns index 0, and the station is assigned the FIRST
gazetteer city with method `assigned_by_nearest_city` and NaN distance,
contradicting the claimed `no_coords` outcome. A non-numeric string cell
and a `None` cell do produce the claimed `no_coords` result. -/
theorem assign_missing_coordinate_guessed_match :
    assignStation [⟨"CityA", "PA", 10, 20⟩, ⟨"CityB", "PB", 30, 40⟩]
        ⟨"ST1", .fnum 116, .fmissing⟩ =
      { province_code := "PA"
        province_name := "PA"
        prov_assign_method := "assigned_by_nearest_city"
        nearest_city := "CityA"
        distance_to_city_km := .pnan } ∧
    assignStation [⟨"CityA", "PA", 10, 20⟩] ⟨"ST2", .fstr ['a', 'b'], .fnum 30⟩ =
      noCoordsResult ∧
    assignStation [⟨"CityA", "PA", 10, 20⟩] ⟨"ST3", .fnum 30, .fnone⟩ =
      noCoordsResult :=
  ⟨rfl, rfl, rfl⟩

/-! ## Character lemmas for canonicalization (C3) -/

theorem toNat_lowerChar_upper (c : Char) (h1 : 65 ≤ c.toNat) (h2 : c.toNat ≤ 90) :
    (lowerChar c).toNat = c.toNat + 32 := by
  unfold lowerChar
  rw [if_pos ⟨h1, h2⟩]
  have h : Nat.isValidChar (c.toNat + 32) := Or.inl (by omega)
  simp [Char.ofNat, h]
  rfl

theorem lowerChar_fixed_of_not_upper (c : Char) (h : ¬(65 ≤ c.toNat ∧ c.toNat ≤ 90)) :
    lowerChar c = c := by
  unfold lowerChar
  rw [if_neg h]

theorem lowerChar_idem (c : Char) : lowerChar (lowerChar c) = lowerChar c := by
  by_cases h : 65 ≤ c.toNat ∧ c.toNat ≤ 90
  · have ht := toNat_lowerChar_upper c h.1 h.2
    have hnot : ¬(65 ≤ (lowerChar c).toNat ∧ (lowerChar c).toNat ≤ 90) := by omega
    exact lowerChar_fixed_of_not_upper _ hnot
  · have hc := lowerChar_fixed_of_not_upper c h
    rw [hc, hc]

theorem isPunct_false_of_range (d : Char) (h1 : 97 ≤ d.toNat) (h2 : d.toNat ≤ 122) :
    isPunct d = false := by
  by_contra hne
  have ht : isPunct d = true := by
    cases hv : isPunct d
    · exact absurd hv hne
    · rfl
  have hmem : d ∈ punctChars := by simpa [isPunct] using ht
  simp only [punctChars] at hmem
  fin_cases hmem <;>
    first
      | exact absurd h1 (by decide)
      | exact absurd h2 (by decide)

theorem isPunct_lowerChar (c : Char) (h : isPunct c = false) :
    isPunct (lowerChar c) = false := by
  by_cases hu : 65 ≤ c.toNat ∧ c.toNat ≤ 90
  · have ht := toNat_lowerChar_upper c hu.1 hu.2
    exact isPunct_false_of_range _ (by omega) (by omega)
  · rw [lowerChar_fixed_of_not_upper c hu]
    exact h

theorem nfkcChar_fixed_of_small (d : Char) (h : d.toNat ≤ 1000) : nfkcChar d = d := by
  have h1 : d ≠ '，' := by
    intro he
    rw [he] at h
    exact absurd h (by decide)
  have h2 : d ≠ '（' := by
    intro he
    rw [he] at h
    exact absurd h (by decide)
  have h3 : d ≠ '）' := by
    intro he
    rw [he] at h
    exact absurd h (by decide)
  simp [nfkcChar, h1, h2, h3]

theorem nfkcChar_idem (c : Char) : nfkcChar (nfkcChar c) = nfkcChar c := by
  by_cases h1 : c = '，'
  · rw [h1]
    decide
  by_cases h2 : c = '（'
  · rw [h2]
    decide
  by_cases h3 : c = '）'
  · rw [h3]
    decide
  have hc : nfkcChar c = c := by simp [nfkcChar, h1, h2, h3]
  rw [hc, hc]

theorem nfkcChar_lowerChar (c : Char) (h : nfkcChar c = c) :
    nfkcChar (lowerChar c) = lowerChar c := by
  by_cases hu : 65 ≤ c.toNat ∧ c.toNat ≤ 90
  · have ht := toNat_lowerChar_upper c hu.1 hu.2
    exact nfkcChar_fixed_of_small _ (by omega)
  · rw [lowerChar_fixed_of_not_upper c hu]
    exact h

theorem mem_pyStrip (l : Str) (c : Char) (hc : c ∈ pyStrip l) : c ∈ l := by
  unfold pyStrip at hc
  rw [List.mem_reverse] at hc
  have h1 : c ∈ (l.dropWhile isWs).reverse := (List.dropWhile_sublist isWs).subset hc
  rw [List.mem_reverse] at h1
  exact (List.dropWhile_sublist isWs).subset h1

theorem mem_collapseWsAux (b : Bool) (l : Str) (c : Char)
    (hc : c ∈ collapseWsAux b l) : c ∈ l ∨ c = ' ' := by
  induction l generalizing b with
  | nil => simp [collapseWsAux] at hc
  | cons a rest ih =>
    unfold collapseWsAux at hc
    split at hc
    · split at hc
      · rcases ih _ hc with h | h
        · exact Or.inl (List.mem_cons_of_mem a h)
        · exact Or.inr h
      · rcases List.mem_cons.mp hc with h | h
        · exact Or.inr h
        · rcases ih _ h with h2 | h2
          · exact Or.inl (List.mem_cons_of_mem a h2)
          · exact Or.inr h2
    · rcases List.mem_cons.mp hc with h | h
      · exact Or.inl (by rw [h]; exact List.mem_cons_self a rest)
      · rcases ih _ h with h2 | h2
        · exact Or.inl (List.mem_cons_of_mem a h2)
        · exact Or.inr h2

theorem mem_collapseWs (l : Str) (c : Char) (hc : c ∈ collapseWs l) :
    c ∈ l ∨ c = ' ' :=
  mem_collapseWsAux false l c hc

theorem normalize_name_chars (x : Option Str) (c : Char) (hc : c ∈ normalize_name x) :
    nfkcChar c = c ∧ isPunct c = false ∧ lowerChar c = c := by
  cases x with
  | none => simp [normalize_name] at hc
  | some s =>
    unfold normalize_name at hc
    rcases List.mem_map.mp hc with ⟨c0, hc0, rfl⟩
    have hc0p : isPunct c0 = false := by
      have hpass := (List.mem_filter.mp hc0).2
      simpa using hpass
    have hc0mem := (List.mem_filter.mp hc0).1
    have hc0n : nfkcChar c0 = c0 := by
      rcases mem_collapseWs _ _ hc0mem with h | h
      · have hmem2 := mem_pyStrip _ _ h
        rcases List.mem_map.mp hmem2 with ⟨c1, _, rfl⟩
        exact nfkcChar_idem c1
      · rw [h]
        decide
    exact ⟨nfkcChar_lowerChar c0 hc0n, isPunct_lowerChar c0 hc0p, lowerChar_idem c0⟩

/-- Claim C3, counterexample to the claim as stated: on `". a"` the
punctuation removal (which runs AFTER whitespace collapsing) leaves a
stray leading space, so a second application strips further:
`normalize_name ". a" = " a"` but `normalize_name " a" = "a"`. -/
theorem normalize_name_not_idempotent :
    canonStr (normalize_name (some ['.', ' ', 'a'])) ≠
      normalize_name (some ['.', ' ', 'a']) := by decide

/-- Claim C3 (amended): `normalize_name` is idempotent only up to
whitespace re-normalization — a second application equals the first
followed by one more strip-and-collapse pass (so it is the identity
exactly when punctuation removal left no stray whitespace, and a third
application never changes anything further). -/
theorem normalize_name_second_application (x : Option Str) :
    canonStr (normalize_name x) = collapseWs (pyStrip (normalize_name x)) := by
  have hfacts := normalize_name_chars x
  generalize hy : normalize_name x = y at hfacts ⊢
  show (((collapseWs (pyStrip (y.map nfkcChar))).filter (fun c => !(isPunct c))).map lowerChar) =
    collapseWs (pyStrip y)
  have h1 : y.map nfkcChar = y := by
    calc y.map nfkcChar = y.map id := List.map_congr_left (fun c hc => (hfacts c hc).1)
      _ = y := List.map_id y
  rw [h1]
  have hsub : ∀ c ∈ collapseWs (pyStrip y), isPunct c = false ∧ lowerChar c = c := by
    intro c hc
    rcases mem_collapseWs _ _ hc with h | h
    · have hf := hfacts c (mem_pyStrip _ _ h)
      exact ⟨hf.2.1, hf.2.2⟩
    · rw [h]
      exact ⟨by decide, by decide⟩
  have h2 : (collapseWs (pyStrip y)).filter (fun c => !(isPunct c)) = collapseWs (pyStrip y) := by
    rw [List.filter_eq_self]
    intro c hc
    simp [(hsub c hc).1]
  rw [h2]
  calc (collapseWs (pyStrip y)).map lowerChar
      = (collapseWs (pyStrip y)).map id := List.map_congr_left (fun c hc => (hsub c hc).2)
    _ = collapseWs (pyStrip y) := List.map_id _
